import Mathlib

/-!
Verification development for the Taichung YouBike feed scripts.

The repository's only reusable logic is the station-feed normalizer
`get_ubike_data` (src/0920/python/Taichung_u_bike0920.py, with close
variants in u_bike_Taichung.py and Taichung_u_bike2.py) together with the
pure helpers `get_marker_color` and `haversine`.  This file gives a shallow
embedding of that logic:

* JSON values are modelled by the inductive `JVal` (numbers as rationals:
  all numeric literals in the feed are decimal, and `ℚ` represents them
  exactly; floating-point rounding is outside the scope of the claims).
* A pandas `DataFrame` is modelled by `Frame`: a list of column names and
  rows of cells, a cell being `Option JVal` with `none` playing the role of
  NaN / missing.  `pd.DataFrame(list-of-dicts)` is modelled for lists of
  JSON objects (the shape every claim quantifies over): columns are the
  keys in order of first appearance, a missing key or a JSON `null` value
  both become the missing cell, exactly as pandas treats absent keys and
  `None` values as NA.  Python `set`s (required/missing/observed columns)
  are modelled as lists in a deterministic order; only membership is
  meaningful.
* `pd.to_numeric(errors='coerce')` is modelled by `toNumericCell` using the
  documented semantics: values that fail numeric conversion become NA.
* `pd.to_datetime(format='%Y%m%d%H%M%S', errors='coerce')` is modelled by
  `parseMdayCell`; a successfully parsed timestamp is represented by its
  canonical 14-digit source string (no claim inspects the parsed value).
* `json.loads` is modelled by the executable fueled parser `jsonParse`
  (common escapes supported; `\u` escapes and rejection of leading zeros
  are not modelled — the claims only use the parser through hypotheses of
  the form `jsonParse s = some v` and on concrete witness inputs).
* `str.replace('""', '"')` is modelled by `pyReplaceDq` (left-to-right,
  non-overlapping, like Python's `str.replace`).
-/

namespace UBike

/-- JSON value as produced by `json.loads`: null, booleans, numbers
(decimal literals represented exactly as rationals), strings, arrays and
objects (key/value lists; duplicate keys are resolved like Python dicts:
last value wins, first position wins). -/
inductive JVal where
  | null : JVal
  | bool (b : Bool) : JVal
  | num (q : ℚ) : JVal
  | str (s : String) : JVal
  | arr (xs : List JVal) : JVal
  | obj (fs : List (String × JVal)) : JVal

mutual

/-- Decidable equality on JSON values (hand-written: `deriving` does not
support this nested inductive). -/
def JVal.decEq : (a b : JVal) → Decidable (a = b)
  | .null, .null => isTrue rfl
  | .null, .bool _ => isFalse (fun h => JVal.noConfusion h)
  | .null, .num _ => isFalse (fun h => JVal.noConfusion h)
  | .null, .str _ => isFalse (fun h => JVal.noConfusion h)
  | .null, .arr _ => isFalse (fun h => JVal.noConfusion h)
  | .null, .obj _ => isFalse (fun h => JVal.noConfusion h)
  | .bool _, .null => isFalse (fun h => JVal.noConfusion h)
  | .bool a, .bool b => decidable_of_iff (a = b) (by simp)
  | .bool _, .num _ => isFalse (fun h => JVal.noConfusion h)
  | .bool _, .str _ => isFalse (fun h => JVal.noConfusion h)
  | .bool _, .arr _ => isFalse (fun h => JVal.noConfusion h)
  | .bool _, .obj _ => isFalse (fun h => JVal.noConfusion h)
  | .num _, .null => isFalse (fun h => JVal.noConfusion h)
  | .num _, .bool _ => isFalse (fun h => JVal.noConfusion h)
  | .num a, .num b => decidable_of_iff (a = b) (by simp)
  | .num _, .str _ => isFalse (fun h => JVal.noConfusion h)
  | .num _, .arr _ => isFalse (fun h => JVal.noConfusion h)
  | .num _, .obj _ => isFalse (fun h => JVal.noConfusion h)
  | .str _, .null => isFalse (fun h => JVal.noConfusion h)
  | .str _, .bool _ => isFalse (fun h => JVal.noConfusion h)
  | .str _, .num _ => isFalse (fun h => JVal.noConfusion h)
  | .str a, .str b => decidable_of_iff (a = b) (by simp)
  | .str _, .arr _ => isFalse (fun h => JVal.noConfusion h)
  | .str _, .obj _ => isFalse (fun h => JVal.noConfusion h)
  | .arr _, .null => isFalse (fun h => JVal.noConfusion h)
  | .arr _, .bool _ => isFalse (fun h => JVal.noConfusion h)
  | .arr _, .num _ => isFalse (fun h => JVal.noConfusion h)
  | .arr _, .str _ => isFalse (fun h => JVal.noConfusion h)
  | .arr xs, .arr ys =>
    match JVal.decEqList xs ys with
    | isTrue h => isTrue (by rw [h])
    | isFalse h => isFalse (fun he => h (by injection he))
  | .arr _, .obj _ => isFalse (fun h => JVal.noConfusion h)
  | .obj _, .null => isFalse (fun h => JVal.noConfusion h)
  | .obj _, .bool _ => isFalse (fun h => JVal.noConfusion h)
  | .obj _, .num _ => isFalse (fun h => JVal.noConfusion h)
  | .obj _, .str _ => isFalse (fun h => JVal.noConfusion h)
  | .obj _, .arr _ => isFalse (fun h => JVal.noConfusion h)
  | .obj fs, .obj gs =>
    match JVal.decEqPairs fs gs with
    | isTrue h => isTrue (by rw [h])
    | isFalse h => isFalse (fun he => h (by injection he))

/-- Decidable equality on lists of JSON values. -/
def JVal.decEqList : (xs ys : List JVal) → Decidable (xs = ys)
  | [], [] => isTrue rfl
  | [], _ :: _ => isFalse (fun h => List.noConfusion h)
  | _ :: _, [] => isFalse (fun h => List.noConfusion h)
  | x :: xs, y :: ys =>
    match JVal.decEq x y with
    | isTrue h1 =>
      match JVal.decEqList xs ys with
      | isTrue h2 => isTrue (by rw [h1, h2])
      | isFalse h2 => isFalse (fun he => h2 (by injection he))
    | isFalse h1 => isFalse (fun he => h1 (by injection he))

/-- Decidable equality on JSON object field lists. -/
def JVal.decEqPairs :
    (fs gs : List (String × JVal)) → Decidable (fs = gs)
  | [], [] => isTrue rfl
  | [], _ :: _ => isFalse (fun h => List.noConfusion h)
  | _ :: _, [] => isFalse (fun h => List.noConfusion h)
  | (k, v) :: fs, (l, w) :: gs =>
    if h0 : k = l then
      match JVal.decEq v w with
      | isTrue h1 =>
        match JVal.decEqPairs fs gs with
        | isTrue h2 => isTrue (by rw [h0, h1, h2])
        | isFalse h2 => isFalse (fun he => h2 (by injection he))
      | isFalse h1 =>
        isFalse (fun he => by
          injection he with hhd htl
          injection hhd with hk hv
          exact h1 hv)
    else
      isFalse (fun he => by
        injection he with hhd htl
        injection hhd with hk hv
        exact h0 hk)

end

instance : DecidableEq JVal := JVal.decEq

/-- Membership test of a string in a list of strings, mirroring Python's
`in` on a list/set of column names. -/
def containsStr : List String → String → Bool
  | [], _ => false
  | x :: xs, k => if x = k then true else containsStr xs k

/-- Membership test of a JSON value in a JSON array, mirroring Python's
`"retVal" in data` when `data` is a list. -/
def containsJ : List JVal → JVal → Bool
  | [], _ => false
  | x :: xs, v => if x = v then true else containsJ xs v

/-- Deduplication keeping the first occurrence of each name not already
seen (structurally recursive so concrete inputs evaluate in the kernel). -/
def dedupFirstAux (seen : List String) : List String → List String
  | [] => []
  | x :: xs =>
    if containsStr seen x then dedupFirstAux seen xs
    else x :: dedupFirstAux (x :: seen) xs

/-- Deduplication keeping the first occurrence, mirroring the order in
which pandas assembles the column index from a list of dicts. -/
def dedupFirst (l : List String) : List String := dedupFirstAux [] l

/-- Keys of a JSON object in Python-dict order (first occurrence of each
key); non-objects contribute no keys. -/
def objKeys : JVal → List String
  | .obj fs => dedupFirst (fs.map Prod.fst)
  | _ => []

/-- Lookup in a JSON object with Python-dict semantics (last duplicate
binding wins). -/
def objLookup (fs : List (String × JVal)) (k : String) : Option JVal :=
  match fs.reverse.find? (fun p => p.1 == k) with
  | some p => some p.2
  | none => none

/-- Lookup of a key in a record; non-objects have no fields. -/
def recordLookup : JVal → String → Option JVal
  | .obj fs, k => objLookup fs k
  | _, _ => none

/-- Cell contributed by one record to one column of the DataFrame: a
missing key and a JSON `null` value both become the missing cell (pandas
treats an absent key as NaN and a `None` value as NA). -/
def cellOfRecord (r : JVal) (k : String) : Option JVal :=
  match recordLookup r k with
  | some .null => none
  | some v => some v
  | none => none

/-- Column index of `pd.DataFrame(list-of-dicts)`: union of the records'
key sets in order of first appearance. -/
def unionKeys (rs : List JVal) : List String :=
  dedupFirst ((rs.map objKeys).flatten)

/-- Model of a pandas DataFrame: named columns and rows of cells aligned
with the columns; `none` is NaN / missing. -/
structure Frame where
  columns : List String
  rows : List (List (Option JVal))
deriving DecidableEq

/-- The empty DataFrame `pd.DataFrame()`. -/
def Frame.empty : Frame := ⟨[], []⟩

/-- Model of `df.empty`: true when either axis has length zero. -/
def Frame.isEmpty (f : Frame) : Bool := f.rows.isEmpty || f.columns.isEmpty

/-- Cell of a row under a column name; `none` when the column is absent or
the cell is NA. -/
def cellAt (cols : List String) (row : List (Option JVal)) (c : String) :
    Option JVal :=
  match (cols.zip row).find? (fun p => p.1 == c) with
  | some p => p.2
  | none => none

/-- Apply a column-dependent transformation to every cell, as the per-column
assignments `df[col] = ...` do. -/
def Frame.mapCells (f : Frame) (h : String → Option JVal → Option JVal) :
    Frame :=
  ⟨f.columns,
   f.rows.map (fun row => (f.columns.zip row).map (fun p => h p.1 p.2))⟩

/-- Model of `df.dropna(subset=subset)`: keep the rows whose cells under
every column of `subset` are present. -/
def Frame.dropnaSubset (f : Frame) (subset : List String) : Frame :=
  ⟨f.columns,
   f.rows.filter (fun row =>
     subset.all (fun c => (cellAt f.columns row c).isSome))⟩

/-- Model of `pd.DataFrame(station_data)` for a decoded candidate station
list: one row per record, columns from the union of key sets.  Non-object
elements contribute no keys and an all-missing row (every claim quantifies
over lists of station objects). -/
def framePDofList (rs : List JVal) : Frame :=
  ⟨unionKeys rs, rs.map (fun r => (unionKeys rs).map (cellOfRecord r))⟩

/-! Numeric and timestamp coercion. -/

/-- ASCII decimal digit test. -/
def isDigitC (c : Char) : Bool := '0' ≤ c && c ≤ '9'

/-- Whitespace as stripped around numeric strings. -/
def isSpaceC (c : Char) : Bool := c = ' ' || c = '\t' || c = '\n' || c = '\r'

/-- Value of a digit string, most significant digit first. -/
def digitsToNat (cs : List Char) : ℕ :=
  cs.foldl (fun n c => n * 10 + (c.toNat - 48)) 0

/-- Strip leading and trailing whitespace from a character list. -/
def stripChars (cs : List Char) : List Char :=
  ((cs.dropWhile isSpaceC).reverse.dropWhile isSpaceC).reverse

/-- Optional sign at the head of a numeric token; returns (negative, rest). -/
def parseSign : List Char → Bool × List Char
  | '-' :: r => (true, r)
  | '+' :: r => (false, r)
  | cs => (false, cs)

/-- Exact rational value of a decimal literal given as sign, integer
digits, fraction digits and decimal exponent (assembled with integer
arithmetic only, so that concrete inputs evaluate inside the kernel). -/
def ratFromParts (neg : Bool) (ip fp : List Char) (e : ℤ) : ℚ :=
  let m : ℕ := digitsToNat ip * 10 ^ fp.length + digitsToNat fp
  let sm : ℤ := if neg then -(m : ℤ) else (m : ℤ)
  match e with
  | .ofNat k => mkRat (sm * (10 : ℤ) ^ k) (10 ^ fp.length)
  | .negSucc k => mkRat sm (10 ^ fp.length * 10 ^ (k + 1))

/-- Decimal number parser modelling the numeric conversion performed by
`pd.to_numeric` on a string: optional surrounding whitespace, optional
sign, digits with optional fractional part and optional exponent, at least
one mantissa digit, nothing left over.  Values are exact rationals
(non-finite spellings such as `inf`/`nan` are not representable in `ℚ` and
are modelled as a failed conversion; no claim involves them). -/
def parseNumStr (s : String) : Option ℚ :=
  let cs := stripChars s.toList
  let (neg, cs1) := parseSign cs
  let (ip, cs2) := cs1.span isDigitC
  let (fp, cs3) :=
    match cs2 with
    | '.' :: r => r.span isDigitC
    | _ => ([], cs2)
  if ip.isEmpty && fp.isEmpty then none
  else
    match cs3 with
    | 'e' :: r | 'E' :: r =>
      let (eneg, r1) := parseSign r
      let (ed, r2) := r1.span isDigitC
      if ed.isEmpty || !r2.isEmpty then none
      else
        let e : ℤ := if eneg then -(digitsToNat ed : ℤ) else (digitsToNat ed : ℤ)
        some (ratFromParts neg ip fp e)
    | [] => some (ratFromParts neg ip fp 0)
    | _ => none

/-- Model of `pd.to_numeric(cell, errors='coerce')` on one cell: numbers
pass through, booleans become 0/1, numeric strings are parsed exactly,
everything else (unparseable strings, arrays, objects, NA) becomes NA. -/
def toNumericCell : Option JVal → Option JVal
  | some (.num q) => some (.num q)
  | some (.bool b) => some (.num (if b then 1 else 0))
  | some (.str s) =>
    match parseNumStr s with
    | some q => some (.num q)
    | none => none
  | _ => none

/-- Leap-year test of the Gregorian calendar. -/
def isLeap (y : ℕ) : Bool := (y % 4 = 0 && y % 100 ≠ 0) || y % 400 = 0

/-- Number of days of a month. -/
def daysInMonth (y m : ℕ) : ℕ :=
  if m = 2 then (if isLeap y then 29 else 28)
  else if m = 4 || m = 6 || m = 9 || m = 11 then 30
  else 31

/-- Model of `pd.to_datetime(cell, format='%Y%m%d%H%M%S', errors='coerce')`
on one cell: a string of exactly 14 digits denoting a valid calendar
timestamp parses (the parsed timestamp is represented by its canonical
source string — no claim inspects the value), everything else becomes
NaT (modelled as NA). -/
def parseMdayCell (v : Option JVal) : Option JVal :=
  match v with
  | some (.str s) =>
    let cs := s.toList
    if cs.length = 14 && cs.all isDigitC then
      let y := digitsToNat (cs.take 4)
      let mo := digitsToNat ((cs.drop 4).take 2)
      let d := digitsToNat ((cs.drop 6).take 2)
      let hh := digitsToNat ((cs.drop 8).take 2)
      let mi := digitsToNat ((cs.drop 10).take 2)
      let ss := digitsToNat ((cs.drop 12).take 2)
      if 1 ≤ mo && mo ≤ 12 && 1 ≤ d && d ≤ daysInMonth y mo &&
          hh ≤ 23 && mi ≤ 59 && ss ≤ 59 then
        some (.str s)
      else none
    else none
  | _ => none

/-! The normalization pipeline shared by all input shapes
(Taichung_u_bike0920.py lines 103-131). -/

/-- The required column set of the validation step (source order of the
Python set literal). -/
def required_cols : List String :=
  ["lat", "lng", "tot", "sbi", "bemp", "mday", "sna", "sarea", "ar"]

/-- The columns subjected to numeric coercion. -/
def numeric_cols : List String := ["lat", "lng", "tot", "sbi", "bemp"]

/-- Per-column coercion step: numeric columns go through
`pd.to_numeric(errors='coerce')`, the rest are untouched. -/
def coercePair (c : String) (v : Option JVal) : Option JVal :=
  if containsStr numeric_cols c then toNumericCell v else v

/-- Per-column timestamp step: the `mday` column goes through
`pd.to_datetime(format='%Y%m%d%H%M%S', errors='coerce')`, the rest are
untouched. -/
def mdayPair (c : String) (v : Option JVal) : Option JVal :=
  if c = "mday" then parseMdayCell v else v

/-- Diagnostics surfaced by `get_ubike_data` on its failure paths, one
constructor per `st.error`/`st.warning`-then-return-empty site plus the
exception handlers. -/
inductive Diag where
  | requestFailed : Diag
  | retValDecodeError (head : String) : Diag
  | retValBadType : Diag
  | csvEmptyData : Diag
  | csvRetValDecodeError (head : String) : Diag
  | csvRetValNotString : Diag
  | parsedEmpty : Diag
  | schemaMismatch (missing observed : List String) : Diag
  | processingError : Diag
deriving DecidableEq, Repr

/-- Common pipeline applied to the unwrapped DataFrame: empty check, schema
validation (`required_cols ⊆ actual_cols`), numeric coercion, dropping of
rows with missing `lat`/`lng`/`sna`, timestamp parsing.  Every failure
returns the empty frame plus a diagnostic. -/
def processFrame (df : Frame) : Frame × Option Diag :=
  if df.isEmpty then (Frame.empty, some .parsedEmpty)
  else if required_cols.all (fun c => containsStr df.columns c) then
    let df1 := df.mapCells coercePair
    let df2 := df1.dropnaSubset ["lat", "lng", "sna"]
    let df3 := df2.mapCells mdayPair
    (df3, none)
  else
    (Frame.empty,
     some (.schemaMismatch
       (required_cols.filter (fun c => !containsStr df.columns c))
       df.columns))

/-- Normalization of a decoded candidate station list: build the DataFrame
and run the common pipeline. -/
def normalizeStations (rs : List JVal) : Frame × Option Diag :=
  processFrame (framePDofList rs)

/-- A record survives `dropna(subset=['lat','lng','sna'])` after numeric
coercion exactly when its latitude and longitude coerce to numbers and its
name is present. -/
def geomOK (r : JVal) : Bool :=
  (toNumericCell (cellOfRecord r "lat")).isSome &&
  (toNumericCell (cellOfRecord r "lng")).isSome &&
  (cellOfRecord r "sna").isSome

/-- The fully processed output row of one record: numeric coercion on the
numeric columns, timestamp parsing on `mday`. -/
def procRow (cols : List String) (r : JVal) : List (Option JVal) :=
  cols.map (fun c => mdayPair c (coercePair c (cellOfRecord r c)))

/-! Executable model of `json.loads`. -/

/-- Opening brace character. -/
def lbrace : Char := Char.ofNat 123

/-- Closing brace character. -/
def rbrace : Char := Char.ofNat 125

/-- Skip JSON insignificant whitespace. -/
def skipWs (cs : List Char) : List Char := cs.dropWhile isSpaceC

/-- Translation of a character following a backslash in a JSON string
(common escapes; `\u` escapes are not modelled). -/
def escMap (c : Char) : Option Char :=
  if c = '"' then some '"'
  else if c = '\\' then some '\\'
  else if c = '/' then some '/'
  else if c = 'n' then some '\n'
  else if c = 't' then some '\t'
  else if c = 'r' then some '\r'
  else if c = 'b' then some (Char.ofNat 8)
  else if c = 'f' then some (Char.ofNat 12)
  else none

/-- Body of a JSON string after the opening quote; returns the decoded
characters and the input after the closing quote. -/
def parseStrChars : List Char → Option (List Char × List Char)
  | [] => none
  | '"' :: rest => some ([], rest)
  | '\\' :: rest =>
    match rest with
    | [] => none
    | e :: rest2 =>
      match escMap e, parseStrChars rest2 with
      | some c, some (s, r) => some (c :: s, r)
      | _, _ => none
  | c :: rest =>
    match parseStrChars rest with
    | some (s, r) => some (c :: s, r)
    | none => none

/-- Exponent-and-assembly tail of a JSON number. -/
def parseJNumTail (neg : Bool) (ip fp : List Char) (cs : List Char) :
    Option (ℚ × List Char) :=
  match cs with
  | 'e' :: r | 'E' :: r =>
    let (eneg, r1) := parseSign r
    let (ed, r2) := r1.span isDigitC
    if ed.isEmpty then none
    else
      let e : ℤ := if eneg then -(digitsToNat ed : ℤ) else (digitsToNat ed : ℤ)
      some (ratFromParts neg ip fp e, r2)
  | _ => some (ratFromParts neg ip fp 0, cs)

/-- JSON number token: optional minus, integer part, optional fraction,
optional exponent; the value is an exact rational. -/
def parseJNum (cs : List Char) : Option (ℚ × List Char) :=
  let (neg, cs1) :=
    match cs with
    | '-' :: r => (true, r)
    | _ => (false, cs)
  let (ip, cs2) := cs1.span isDigitC
  if ip.isEmpty then none
  else
    match cs2 with
    | '.' :: r =>
      let (fp, cs3) := r.span isDigitC
      if fp.isEmpty then none else parseJNumTail neg ip fp cs3
    | _ => parseJNumTail neg ip [] cs2

mutual

/-- Fueled JSON value parser. -/
def parseVal : ℕ → List Char → Option (JVal × List Char)
  | 0, _ => none
  | Nat.succ fuel, cs =>
    match skipWs cs with
    | 'n' :: 'u' :: 'l' :: 'l' :: r => some (.null, r)
    | 't' :: 'r' :: 'u' :: 'e' :: r => some (.bool true, r)
    | 'f' :: 'a' :: 'l' :: 's' :: 'e' :: r => some (.bool false, r)
    | '"' :: r =>
      match parseStrChars r with
      | some (s, r2) => some (.str (String.mk s), r2)
      | none => none
    | '[' :: r =>
      match skipWs r with
      | ']' :: r2 => some (.arr [], r2)
      | r2 =>
        match parseElems fuel r2 with
        | some (xs, r3) => some (.arr xs, r3)
        | none => none
    | c :: r =>
      if c = lbrace then
        match skipWs r with
        | d :: r2 =>
          if d = rbrace then some (.obj [], r2)
          else
            match parseMembers fuel (d :: r2) with
            | some (fs, r3) => some (.obj fs, r3)
            | none => none
        | [] => none
      else
        match parseJNum (c :: r) with
        | some (q, r2) => some (.num q, r2)
        | none => none
    | [] => none

/-- Fueled parser of the comma-separated elements of a JSON array,
consuming the closing bracket. -/
def parseElems : ℕ → List Char → Option (List JVal × List Char)
  | 0, _ => none
  | Nat.succ fuel, cs =>
    match parseVal fuel cs with
    | some (v, r) =>
      match skipWs r with
      | ',' :: r2 =>
        match parseElems fuel r2 with
        | some (xs, r3) => some (v :: xs, r3)
        | none => none
      | ']' :: r2 => some ([v], r2)
      | _ => none
    | none => none

/-- Fueled parser of the comma-separated members of a JSON object,
consuming the closing brace. -/
def parseMembers : ℕ → List Char → Option (List (String × JVal) × List Char)
  | 0, _ => none
  | Nat.succ fuel, cs =>
    match skipWs cs with
    | '"' :: r =>
      match parseStrChars r with
      | some (k, r2) =>
        match skipWs r2 with
        | ':' :: r3 =>
          match parseVal fuel r3 with
          | some (v, r4) =>
            match skipWs r4 with
            | ',' :: r5 =>
              match parseMembers fuel r5 with
              | some (fs, r6) => some ((String.mk k, v) :: fs, r6)
              | none => none
            | c :: r5 =>
              if c = rbrace then some ([(String.mk k, v)], r5) else none
            | [] => none
          | none => none
        | _ => none
      | none => none
    | _ => none

end

/-- Model of `json.loads`: parse one value, allow surrounding whitespace,
require the whole input to be consumed. -/
def jsonParse (s : String) : Option JVal :=
  match parseVal (2 * s.length + 2) s.toList with
  | some (v, rest) => if (skipWs rest).isEmpty then some v else none
  | none => none

/-! Model of the CSV `retVal` un-escaping `ret_val.replace('\x22\x22', '\x22')`. -/

/-- Left-to-right non-overlapping replacement of each doubled quote pair by
a single quote, like Python's `str.replace('""', '"')`. -/
def unescapeChars : List Char → List Char
  | [] => []
  | [c] => [c]
  | c1 :: c2 :: rest =>
    if c1 = '"' && c2 = '"' then '"' :: unescapeChars rest
    else c1 :: unescapeChars (c2 :: rest)

/-- The un-escaping applied by the CSV branch to the `retVal` cell. -/
def pyReplaceDq (s : String) : String := String.mk (unescapeChars s.toList)

/-- CSV-style quote doubling: every quote character becomes two (used to
state the CSV-wrapped claim; not part of the program). -/
def doubleQuotesChars : List Char → List Char
  | [] => []
  | c :: cs =>
    if c = '"' then '"' :: '"' :: doubleQuotesChars cs
    else c :: doubleQuotesChars cs

/-- String-level quote doubling. -/
def doubleQuotes (s : String) : String := String.mk (doubleQuotesChars s.toList)

/-! The feed normalizer `get_ubike_data` of Taichung_u_bike0920.py. -/

/-- Decoded response body handed to the normalizer.  `jsonBody none`
models a JSON content type whose body fails to decode
(`response.json()` raises, caught as a request failure); `csvBody none`
models CSV text `pd.read_csv` cannot parse (caught by the generic
handler).  A parsed CSV is a `Frame`, cells being strings, numbers or NA
as pandas delivers them. -/
inductive ApiResponse where
  | jsonBody (body : Option JVal) : ApiResponse
  | csvBody (table : Option Frame) : ApiResponse
deriving DecidableEq

/-- One fetch attempt: either the transport layer failed
(network error, timeout, non-2xx status from `raise_for_status`) or a
response body with a content type was obtained. -/
inductive Fetch where
  | transportError : Fetch
  | ok (r : ApiResponse) : Fetch
deriving DecidableEq

/-- Model of `pd.DataFrame(station_data)` applied to a decoded JSON value:
a list builds the station frame; a scalar or a dict of scalars makes the
pandas constructor raise (caught by the generic handler), modelled as
failure. -/
def pdFrameOfJson : JVal → Option Frame
  | .arr xs => some (framePDofList xs)
  | _ => none

/-- The feed normalizer (Taichung_u_bike0920.py, `get_ubike_data`): shape
detection by content type and envelope keys, unwrapping, then the common
pipeline.  Total: every failure maps to the empty frame plus a
diagnostic.  Python behaviours modelled: membership `"retVal" in data`
is a key test on a dict and an element test on a list (raising `TypeError`
on other types, caught by the generic handler); `data["retVal"]` on a
list raises likewise. -/
def get_ubike_data : Fetch → Frame × Option Diag
  | .transportError => (Frame.empty, some .requestFailed)
  | .ok (.jsonBody none) => (Frame.empty, some .requestFailed)
  | .ok (.jsonBody (some data)) =>
    match data with
    | .obj fs =>
      if containsStr (fs.map Prod.fst) "retVal" then
        match objLookup fs "retVal" with
        | some (.str rv) =>
          match jsonParse rv with
          | some sd =>
            match pdFrameOfJson sd with
            | some df => processFrame df
            | none => (Frame.empty, some .processingError)
          | none => (Frame.empty, some (.retValDecodeError (rv.take 500)))
        | some (.arr xs) => processFrame (framePDofList xs)
        | some _ => (Frame.empty, some .retValBadType)
        | none => (Frame.empty, some .processingError)
      else if containsStr (fs.map Prod.fst) "records" then
        match objLookup fs "records" with
        | some (.arr xs) => processFrame (framePDofList xs)
        -- pd.DataFrame on a non-list `records` value raises for the scalar
        -- shapes the feed produces; caught by the generic handler
        | _ => (Frame.empty, some .processingError)
      -- pd.DataFrame on a dict of scalar values raises; caught by the
      -- generic handler
      else (Frame.empty, some .processingError)
    | .arr xs =>
      if containsJ xs (.str "retVal") then (Frame.empty, some .processingError)
      else if containsJ xs (.str "records") then
        (Frame.empty, some .processingError)
      else processFrame (framePDofList xs)
    | _ => (Frame.empty, some .processingError)
  | .ok (.csvBody none) => (Frame.empty, some .processingError)
  | .ok (.csvBody (some t)) =>
    if t.isEmpty then (Frame.empty, some .csvEmptyData)
    else if containsStr t.columns "retVal" then
      match t.rows with
      | [] => (Frame.empty, some .processingError)
      | r0 :: _ =>
        match cellAt t.columns r0 "retVal" with
        | some (.str rv) =>
          match jsonParse (pyReplaceDq rv) with
          | some sd =>
            match pdFrameOfJson sd with
            | some df => processFrame df
            | none => (Frame.empty, some .processingError)
          | none => (Frame.empty, some (.csvRetValDecodeError (rv.take 500)))
        | _ => (Frame.empty, some .csvRetValNotString)
    else processFrame t

/-! Pure helpers shared by the scripts. -/

/-- Marker colour from the number of available bikes
(`get_marker_color`): red at zero, orange up to three, green beyond.  The
argument is the numeric `sbi` value of a record. -/
def get_marker_color (sbi : ℚ) : String :=
  if sbi = 0 then "red"
  else if sbi ≤ 3 then "orange"
  else "green"

/-- Degrees to radians, as `math.radians`. -/
noncomputable def radians (x : ℝ) : ℝ := x * (Real.pi / 180)

open Classical in
/-- Two-argument arctangent with the conventions of `math.atan2`. -/
noncomputable def atan2 (y x : ℝ) : ℝ :=
  if 0 < x then Real.arctan (y / x)
  else if x < 0 ∧ 0 ≤ y then Real.arctan (y / x) + Real.pi
  else if x < 0 ∧ y < 0 then Real.arctan (y / x) - Real.pi
  else if x = 0 ∧ 0 < y then Real.pi / 2
  else if x = 0 ∧ y < 0 then -(Real.pi / 2)
  else 0

/-- The intermediate `a` of the haversine formula as computed by the
scripts. -/
noncomputable def hav_a (lat1 lon1 lat2 lon2 : ℝ) : ℝ :=
  let dLat := radians (lat2 - lat1)
  let dLon := radians (lon2 - lon1)
  Real.sin (dLat / 2) * Real.sin (dLat / 2) +
    Real.cos (radians lat1) * Real.cos (radians lat2) *
      (Real.sin (dLon / 2) * Real.sin (dLon / 2))

/-- Great-circle distance in kilometres (`haversine`): Earth radius 6371,
`c = 2 * atan2(sqrt(a), sqrt(1-a))`, distance `R * c`. -/
noncomputable def haversine (lat1 lon1 lat2 lon2 : ℝ) : ℝ :=
  let a := hav_a lat1 lon1 lat2 lon2
  let c := 2 * atan2 (Real.sqrt a) (Real.sqrt (1 - a))
  6371 * c

/-! Concrete inputs used to instantiate the claim theorems. -/

/-- A candidate list whose single record has none of the required fields. -/
def c1input : List JVal := [JVal.obj [("foo", JVal.num 1)]]

/-- A JSON text encoding a one-station list. -/
def c2str : String := "[\x7b\"sna\":\"A\"\x7d]"

/-- The station list encoded by `c2str`. -/
def c2list : List JVal := [JVal.obj [("sna", JVal.str "A")]]

/-- A JSON text encoding a one-station list (CSV-wrapped scenario). -/
def c3str : String := "[\x7b\"sna\":\"B\"\x7d]"

/-- The station list encoded by `c3str`. -/
def c3list : List JVal := [JVal.obj [("sna", JVal.str "B")]]

/-- A full station record with every required field, parameterized by name,
identifier and latitude text. -/
def mkStation (sno sna lat sbi : String) : JVal :=
  JVal.obj [("sno", .str sno), ("sna", .str sna), ("sarea", .str "North"),
    ("ar", .str "addr"), ("lat", .str lat), ("lng", .str "120.68"),
    ("tot", .str "10"), ("sbi", .str sbi), ("bemp", .str "5"),
    ("mday", .str "20250101120000")]

/-- Two records: one whose latitude fails numeric coercion, one whose
bikes-available field fails numeric coercion. -/
def c4input : List JVal :=
  [mkStation "0001" "A" "not-a-number" "5", mkStation "0002" "B" "24.15" "n/a"]

/-- Two records sharing the same station identifier. -/
def c5dupInput : List JVal :=
  [mkStation "0001" "A" "24.15" "5", mkStation "0001" "B" "24.16" "6"]

/-- Two records with distinct station identifiers. -/
def c5input : List JVal :=
  [mkStation "0001" "A" "24.15" "5", mkStation "0002" "B" "24.16" "6"]

/-- A flat array whose single record has every required field present but a
latitude that fails numeric coercion. -/
def c8bad : List JVal := [mkStation "0001" "A" "xyz" "5"]

/-- A flat array of one fully well-formed record. -/
def c8good : List JVal := [mkStation "0001" "A" "24.15" "0"]

/-! Basic lemmas about the list-level helpers. -/

theorem containsStr_iff (l : List String) (k : String) :
    containsStr l k = true ↔ k ∈ l := by
  induction l with
  | nil => simp [containsStr]
  | cons x xs ih =>
    simp only [containsStr, List.mem_cons]
    by_cases h : x = k
    · subst h
      simp
    · rw [if_neg h, ih]
      constructor
      · exact fun hk => Or.inr hk
      · rintro (hk | hk)
        · exact absurd hk.symm h
        · exact hk

theorem mem_dedupFirstAux (l : List String) (seen : List String) (a : String) :
    a ∈ dedupFirstAux seen l ↔ a ∈ l ∧ ¬ a ∈ seen := by
  induction l generalizing seen with
  | nil => simp [dedupFirstAux]
  | cons x xs ih =>
    simp only [dedupFirstAux]
    by_cases hx : containsStr seen x
    · rw [if_pos hx, ih]
      have hxs : x ∈ seen := (containsStr_iff _ _).mp hx
      constructor
      · rintro ⟨h1, h2⟩
        exact ⟨List.mem_cons_of_mem _ h1, h2⟩
      · rintro ⟨h1, h2⟩
        rcases List.mem_cons.mp h1 with h | h
        · exact absurd (h ▸ hxs) h2
        · exact ⟨h, h2⟩
    · rw [if_neg hx]
      have hxs : ¬ x ∈ seen := fun hh => hx ((containsStr_iff _ _).mpr hh)
      simp only [List.mem_cons, ih]
      constructor
      · rintro (h | ⟨h1, h2⟩)
        · exact ⟨Or.inl h, h ▸ hxs⟩
        · exact ⟨Or.inr h1, fun hs => h2 (Or.inr hs)⟩
      · rintro ⟨h1 | h1, h2⟩
        · exact Or.inl h1
        · by_cases hax : a = x
          · exact Or.inl hax
          · exact Or.inr ⟨h1, fun hs => hs.elim hax h2⟩

theorem mem_dedupFirst (l : List String) (a : String) :
    a ∈ dedupFirst l ↔ a ∈ l := by
  simp [dedupFirst, mem_dedupFirstAux]

theorem mem_unionKeys (rs : List JVal) (c : String) :
    c ∈ unionKeys rs ↔ ∃ r ∈ rs, c ∈ objKeys r := by
  simp [unionKeys, mem_dedupFirst, List.mem_flatten]

theorem containsJ_str_of_all_obj (xs : List JVal) (k : String)
    (h : xs.all (fun r => r matches .obj _) = true) :
    containsJ xs (.str k) = false := by
  induction xs with
  | nil => rfl
  | cons x xs ih =>
    simp only [List.all_cons, Bool.and_eq_true] at h
    have hx : ¬ x = JVal.str k := by
      intro he
      rw [he] at h
      simp at h
    simp [containsJ, hx, ih h.2]

theorem zip_map_map (cols : List String) (g : String → Option JVal)
    (h : String → Option JVal → Option JVal) :
    (cols.zip (cols.map g)).map (fun p => h p.1 p.2) =
      cols.map (fun c => h c (g c)) := by
  induction cols with
  | nil => rfl
  | cons c cs ih => simp [List.zip_cons_cons, ih]

theorem cellAt_map (cols : List String) (g : String → Option JVal)
    (c : String) :
    cellAt cols (cols.map g) c =
      if containsStr cols c then g c else none := by
  induction cols with
  | nil => rfl
  | cons x xs ih =>
    simp only [cellAt, List.map_cons, List.zip_cons_cons, List.find?]
    by_cases h : x = c
    · subst h
      simp [containsStr]
    · have hb : (x == c) = false := by simp [h]
      rw [hb]
      simpa [cellAt, containsStr, h] using ih

theorem filter_map_comm {α β : Type} (f : α → β) (p : β → Bool)
    (l : List α) :
    (l.map f).filter p = (l.filter (fun a => p (f a))).map f := by
  induction l with
  | nil => rfl
  | cons x xs ih =>
    by_cases h : p (f x) <;> simp [List.filter, h, ih]

/-! Characterization of the successful pipeline. -/

theorem Frame.columns_mk (c : List String)
    (r : List (List (Option JVal))) : (⟨c, r⟩ : Frame).columns = c := rfl

theorem Frame.rows_mk (c : List String)
    (r : List (List (Option JVal))) : (⟨c, r⟩ : Frame).rows = r := rfl

theorem processFrame_pos (cols : List String)
    (rows : List (List (Option JVal)))
    (h1 : rows ≠ []) (h2 : cols ≠ [])
    (h3 : required_cols.all (fun c => containsStr cols c) = true) :
    processFrame ⟨cols, rows⟩ =
      ((((⟨cols, rows⟩ : Frame).mapCells coercePair).dropnaSubset
          ["lat", "lng", "sna"]).mapCells mdayPair, none) := by
  have hne : Frame.isEmpty ⟨cols, rows⟩ = false := by
    unfold Frame.isEmpty
    cases rows with
    | nil => exact absurd rfl h1
    | cons r rest =>
      cases cols with
      | nil => exact absurd rfl h2
      | cons c cs => rfl
  unfold processFrame
  rw [hne]
  simp only [Bool.false_eq_true, if_false, Frame.columns_mk]
  rw [if_pos h3]

theorem normalizeStations_eq (rs : List JVal) (hne : rs ≠ [])
    (hschema :
      required_cols.all (fun c => containsStr (unionKeys rs) c) = true) :
    normalizeStations rs =
      (⟨unionKeys rs, (rs.filter geomOK).map (procRow (unionKeys rs))⟩,
       none) := by
  have hall := List.all_eq_true.mp hschema
  have hlat : containsStr (unionKeys rs) "lat" = true :=
    hall "lat" (by decide)
  have hlng : containsStr (unionKeys rs) "lng" = true :=
    hall "lng" (by decide)
  have hsna : containsStr (unionKeys rs) "sna" = true :=
    hall "sna" (by decide)
  have hKne : unionKeys rs ≠ [] := by
    intro h
    rw [h] at hlat
    simp [containsStr] at hlat
  have hrowsne :
      rs.map (fun r => (unionKeys rs).map (cellOfRecord r)) ≠ [] := by
    cases rs with
    | nil => exact absurd rfl hne
    | cons r rest => simp
  unfold normalizeStations
  rw [show framePDofList rs =
      ⟨unionKeys rs, rs.map (fun r => (unionKeys rs).map (cellOfRecord r))⟩
    from rfl]
  rw [processFrame_pos _ _ hrowsne hKne hschema]
  refine Prod.ext ?_ rfl
  simp only [Frame.mapCells, Frame.dropnaSubset, Frame.columns_mk,
    Frame.rows_mk]
  congr 1
  simp only [List.map_map, Function.comp_def, zip_map_map]
  rw [filter_map_comm]
  rw [List.filter_congr (q := geomOK) ?_]
  · rw [List.map_map]
    simp only [Function.comp_def, zip_map_map, procRow]
    rfl
  · intro r _
    simp only [List.all_cons, List.all_nil, cellAt_map, hlat, hlng, hsna,
      if_true, Bool.and_true]
    show ((coercePair "lat" (cellOfRecord r "lat")).isSome &&
        ((coercePair "lng" (cellOfRecord r "lng")).isSome &&
          (coercePair "sna" (cellOfRecord r "sna")).isSome)) = geomOK r
    unfold coercePair geomOK
    rw [show containsStr numeric_cols "lat" = true by decide,
        show containsStr numeric_cols "lng" = true by decide,
        show containsStr numeric_cols "sna" = false by decide]
    simp only [if_true, Bool.false_eq_true, if_false, Bool.and_assoc]

theorem processFrame_neg (cols : List String)
    (rows : List (List (Option JVal)))
    (h1 : rows ≠ []) (h2 : cols ≠ [])
    (h3 : required_cols.all (fun c => containsStr cols c) = false) :
    processFrame ⟨cols, rows⟩ =
      (Frame.empty,
       some (Diag.schemaMismatch
         (required_cols.filter (fun c => !containsStr cols c)) cols)) := by
  have hne : Frame.isEmpty ⟨cols, rows⟩ = false := by
    unfold Frame.isEmpty
    cases rows with
    | nil => exact absurd rfl h1
    | cons r rest =>
      cases cols with
      | nil => exact absurd rfl h2
      | cons c cs => rfl
  unfold processFrame
  rw [hne]
  simp only [Bool.false_eq_true, if_false, Frame.columns_mk]
  rw [h3]
  simp only [Bool.false_eq_true, if_false]

theorem cellAt_procRow (cols : List String) (r : JVal) (c : String)
    (hc : containsStr cols c = true) :
    cellAt cols (procRow cols r) c =
      mdayPair c (coercePair c (cellOfRecord r c)) := by
  unfold procRow
  rw [cellAt_map, if_pos hc]

theorem processFrame_error_empty (df : Frame)
    (h : (processFrame df).2.isSome = true) :
    (processFrame df).1 = Frame.empty := by
  unfold processFrame at *
  cases h1 : df.isEmpty with
  | true => rfl
  | false =>
    rw [h1] at h
    simp only [Bool.false_eq_true, if_false] at h
    cases h2 : required_cols.all (fun c => containsStr df.columns c) with
    | true =>
      rw [h2] at h
      simp at h
    | false => simp

/-! Claim theorems. -/

/-- C1 counterexample: for the empty candidate station list every required
field is (vacuously) absent from the key set of every record, yet the
normalizer takes the empty-data path (`df.empty`, checked before schema
validation) and reports an empty-parse warning, not a schema mismatch
carrying the missing/observed field sets. -/
theorem C1_counterexample :
    (normalizeStations ([] : List JVal)).2 = some Diag.parsedEmpty ∧
    ¬ ∃ m o, (normalizeStations ([] : List JVal)).2 =
        some (Diag.schemaMismatch m o) := by
  constructor
  · rfl
  · rintro ⟨m, o, h⟩
    rw [show (normalizeStations ([] : List JVal)).2 = some Diag.parsedEmpty
      from rfl] at h
    exact Diag.noConfusion (Option.some.inj h)

/-- C1 (amended): for every decoded candidate station list that is
nonempty and exhibits at least one field (so that the frame is not empty
on either axis), if some required field is absent from the key set of
every record then the normalizer returns exactly the empty record set
together with a schema-mismatch diagnostic carrying the missing-field set
and the observed field set — never a partial table. -/
theorem C1_schema_mismatch (rs : List JVal) (hne : rs ≠ [])
    (hobs : unionKeys rs ≠ [])
    (hmiss : ∃ c ∈ required_cols, containsStr (unionKeys rs) c = false) :
    normalizeStations rs =
      (Frame.empty,
       some (Diag.schemaMismatch
         (required_cols.filter (fun c => !containsStr (unionKeys rs) c))
         (unionKeys rs))) := by
  obtain ⟨c, hc, hcf⟩ := hmiss
  have hallf :
      required_cols.all (fun k => containsStr (unionKeys rs) k) = false := by
    cases hall : required_cols.all (fun k => containsStr (unionKeys rs) k) with
    | false => rfl
    | true =>
      have h := List.all_eq_true.mp hall c hc
      rw [hcf] at h
      exact Bool.noConfusion h
  have hrowsne :
      rs.map (fun r => (unionKeys rs).map (cellOfRecord r)) ≠ [] := by
    cases rs with
    | nil => exact absurd rfl hne
    | cons r rest => simp
  unfold normalizeStations
  rw [show framePDofList rs =
      ⟨unionKeys rs, rs.map (fun r => (unionKeys rs).map (cellOfRecord r))⟩
    from rfl]
  rw [processFrame_neg _ _ hrowsne hobs hallf]

/-- C1 witness: a one-record list with a single unknown field misses every
required field, and the normalizer returns the empty frame with the
schema-mismatch diagnostic. -/
theorem C1_witness :
    normalizeStations c1input =
      (Frame.empty,
       some (Diag.schemaMismatch
         (required_cols.filter (fun c => !containsStr (unionKeys c1input) c))
         (unionKeys c1input))) :=
  C1_schema_mismatch c1input (by decide) (by decide)
    ⟨"lat", by decide, by decide⟩

/-- C4: for every candidate station list that passes schema validation
(nonempty, all required columns observed), the pipeline reports no
feed-level error; the output rows are exactly the records whose latitude
and longitude coerce to numbers and whose name is present, in order;
every emitted row has present `lat`, `lng` and `sna` cells; and a
record with sound geometry is retained even when its `sbi` fails numeric
coercion, its `sbi` cell being exactly the (possibly null) coercion
result. -/
theorem C4_coercion_drop (rs : List JVal) (hne : rs ≠ [])
    (hschema :
      required_cols.all (fun c => containsStr (unionKeys rs) c) = true) :
    (normalizeStations rs).2 = none ∧
    (normalizeStations rs).1.rows =
      (rs.filter geomOK).map (procRow (unionKeys rs)) ∧
    (∀ row ∈ (normalizeStations rs).1.rows,
      (cellAt (unionKeys rs) row "lat").isSome = true ∧
      (cellAt (unionKeys rs) row "lng").isSome = true ∧
      (cellAt (unionKeys rs) row "sna").isSome = true) ∧
    (∀ r ∈ rs, geomOK r = true →
      procRow (unionKeys rs) r ∈ (normalizeStations rs).1.rows ∧
      cellAt (unionKeys rs) (procRow (unionKeys rs) r) "sbi" =
        toNumericCell (cellOfRecord r "sbi")) := by
  have hall := List.all_eq_true.mp hschema
  have hlat : containsStr (unionKeys rs) "lat" = true := hall "lat" (by decide)
  have hlng : containsStr (unionKeys rs) "lng" = true := hall "lng" (by decide)
  have hsna : containsStr (unionKeys rs) "sna" = true := hall "sna" (by decide)
  have hsbi : containsStr (unionKeys rs) "sbi" = true := hall "sbi" (by decide)
  have H := normalizeStations_eq rs hne hschema
  refine ⟨by rw [H], by rw [H], ?_, ?_⟩
  · intro row hrow
    rw [H] at hrow
    simp only [Frame.rows_mk] at hrow
    obtain ⟨r, hrmem, rfl⟩ := List.mem_map.mp hrow
    have hr : geomOK r = true := (List.mem_filter.mp hrmem).2
    simp only [geomOK, Bool.and_eq_true] at hr
    obtain ⟨⟨hrlat, hrlng⟩, hrsna⟩ := hr
    refine ⟨?_, ?_, ?_⟩
    · rw [cellAt_procRow _ _ _ hlat]
      unfold mdayPair coercePair
      rw [if_neg (show ¬ ("lat" = "mday") by decide),
        show containsStr numeric_cols "lat" = true by decide]
      simpa using hrlat
    · rw [cellAt_procRow _ _ _ hlng]
      unfold mdayPair coercePair
      rw [if_neg (show ¬ ("lng" = "mday") by decide),
        show containsStr numeric_cols "lng" = true by decide]
      simpa using hrlng
    · rw [cellAt_procRow _ _ _ hsna]
      unfold mdayPair coercePair
      rw [if_neg (show ¬ ("sna" = "mday") by decide),
        show containsStr numeric_cols "sna" = false by decide]
      simpa using hrsna
  · intro r hr hgeom
    constructor
    · rw [H]
      simp only [Frame.rows_mk]
      exact List.mem_map_of_mem _ (List.mem_filter.mpr ⟨hr, hgeom⟩)
    · rw [cellAt_procRow _ _ _ hsbi]
      unfold mdayPair coercePair
      rw [if_neg (show ¬ ("sbi" = "mday") by decide),
        show containsStr numeric_cols "sbi" = true by decide]
      simp

/-- C4 witness: on a two-record list whose first record has an unparseable
latitude and whose second has an unparseable bikes-available count, the
pipeline reports no error and emits exactly the geometry-sound records. -/
theorem C4_witness :
    (normalizeStations c4input).2 = none ∧
    (normalizeStations c4input).1.rows =
      (c4input.filter geomOK).map (procRow (unionKeys c4input)) :=
  ⟨(C4_coercion_drop c4input (by decide) (by decide)).1,
   (C4_coercion_drop c4input (by decide) (by decide)).2.1⟩

/-- C6: the availability classification is total over the non-negative
integers and partitions them into exactly three classes: red (empty) at 0,
orange (low) on 1..3, green (sufficient) from 4 on; the boundary values
0, 3 and 4 classify as stated. -/
theorem C6_classification :
    (∀ n : ℕ,
      (get_marker_color n = "red" ↔ n = 0) ∧
      (get_marker_color n = "orange" ↔ 1 ≤ n ∧ n ≤ 3) ∧
      (get_marker_color n = "green" ↔ 4 ≤ n)) ∧
    get_marker_color 0 = "red" ∧
    get_marker_color 3 = "orange" ∧
    get_marker_color 4 = "green" := by
  have key : ∀ n : ℕ,
      get_marker_color (n : ℚ) =
        if n = 0 then "red" else if n ≤ 3 then "orange" else "green" := by
    intro n
    unfold get_marker_color
    by_cases h0 : n = 0
    · subst h0
      norm_num
    · rw [if_neg (show ¬ ((n : ℚ) = 0) by exact_mod_cast h0), if_neg h0]
      by_cases h3 : n ≤ 3
      · rw [if_pos (show (n : ℚ) ≤ 3 by exact_mod_cast h3), if_pos h3]
      · rw [if_neg (show ¬ ((n : ℚ) ≤ 3) by exact_mod_cast h3), if_neg h3]
  refine ⟨fun n => ?_, by norm_num [get_marker_color],
    by norm_num [get_marker_color], by norm_num [get_marker_color]⟩
  rw [key n]
  by_cases h0 : n = 0
  · subst h0
    norm_num
    decide
  · rw [if_neg h0]
    by_cases h3 : n ≤ 3
    · rw [if_pos h3]
      refine ⟨?_, ?_, ?_⟩
      · constructor
        · intro h; exact absurd h (by decide)
        · intro h; exact absurd h h0
      · constructor
        · intro _; exact ⟨Nat.one_le_iff_ne_zero.mpr h0, h3⟩
        · intro _; rfl
      · constructor
        · intro h; exact absurd h (by decide)
        · intro h; omega
    · rw [if_neg h3]
      refine ⟨?_, ?_, ?_⟩
      · constructor
        · intro h; exact absurd h (by decide)
        · intro h; exact absurd h h0
      · constructor
        · intro h; exact absurd h (by decide)
        · intro h; exact absurd h.2 h3
      · constructor
        · intro _; omega
        · intro _; rfl

/-- C5 counterexample: the normalizer performs no deduplication — feeding
two schema-complete records with the same station identifier `sno` yields
two output records carrying that same identifier. -/
theorem C5_counterexample :
    (normalizeStations c5dupInput).1.rows.length = 2 ∧
    cellAt (normalizeStations c5dupInput).1.columns
      ((normalizeStations c5dupInput).1.rows.getD 0 []) "sno" =
        some (JVal.str "0001") ∧
    cellAt (normalizeStations c5dupInput).1.columns
      ((normalizeStations c5dupInput).1.rows.getD 1 []) "sno" =
        some (JVal.str "0001") := by
  decide

/-- C5 (amended): the normalizer only drops or transforms records, never
merges them, so output station identifiers are pairwise distinct exactly
when the input identifiers are: for every schema-passing candidate list
whose records carry pairwise distinct `sno` values, the normalized rows
carry pairwise distinct `sno` cells.  (The claim as stated is false: the
code never deduplicates, so duplicate input identifiers survive — see the
counterexample.) -/
theorem C5_unique_ids (rs : List JVal) (hne : rs ≠ [])
    (hschema :
      required_cols.all (fun c => containsStr (unionKeys rs) c) = true)
    (hsno : containsStr (unionKeys rs) "sno" = true)
    (hdist : rs.Pairwise
      (fun a b => cellOfRecord a "sno" ≠ cellOfRecord b "sno")) :
    (normalizeStations rs).1.rows.Pairwise
      (fun r1 r2 =>
        cellAt (normalizeStations rs).1.columns r1 "sno" ≠
        cellAt (normalizeStations rs).1.columns r2 "sno") := by
  have hcell : ∀ r : JVal,
      cellAt (unionKeys rs) (procRow (unionKeys rs) r) "sno" =
        cellOfRecord r "sno" := by
    intro r
    rw [cellAt_procRow _ _ _ hsno]
    unfold mdayPair coercePair
    rw [if_neg (show ¬ ("sno" = "mday") by decide),
      show containsStr numeric_cols "sno" = false by decide]
    simp
  rw [normalizeStations_eq rs hne hschema]
  simp only [Frame.columns_mk, Frame.rows_mk]
  rw [List.pairwise_map]
  simp only [hcell]
  exact List.Pairwise.sublist (List.filter_sublist rs) hdist

/-- C5 witness: two records with distinct identifiers normalize to rows
with pairwise distinct identifier cells. -/
theorem C5_witness :
    (normalizeStations c5input).1.rows.Pairwise
      (fun r1 r2 =>
        cellAt (normalizeStations c5input).1.columns r1 "sno" ≠
        cellAt (normalizeStations c5input).1.columns r2 "sno") :=
  C5_unique_ids c5input (by decide) (by decide) (by decide) (by decide)

theorem get_flat_array (rs : List JVal)
    (hobj : rs.all (fun r => r matches .obj _) = true) :
    get_ubike_data (.ok (.jsonBody (some (.arr rs)))) =
      normalizeStations rs := by
  have h1 := containsJ_str_of_all_obj rs "retVal" hobj
  have h2 := containsJ_str_of_all_obj rs "records" hobj
  show (if containsJ rs (.str "retVal") = true then
      (Frame.empty, some Diag.processingError)
    else if containsJ rs (.str "records") = true then
      (Frame.empty, some Diag.processingError)
    else processFrame (framePDofList rs)) = normalizeStations rs
  rw [h1, h2]
  simp only [Bool.false_eq_true, if_false]
  rfl

theorem procRow_numeric_cell (cols : List String) (r : JVal) (c : String)
    (hcK : containsStr cols c = true)
    (hcn : containsStr numeric_cols c = true)
    (hcm : ¬ c = "mday") :
    cellAt cols (procRow cols r) c = toNumericCell (cellOfRecord r c) := by
  rw [cellAt_procRow _ _ _ hcK]
  unfold mdayPair coercePair
  rw [if_neg hcm, if_pos hcn]

/-- C8 counterexample: in this flat one-object array every required field
is present, yet the output has zero records instead of one per object —
the record is dropped because its latitude text fails numeric coercion. -/
theorem C8_counterexample :
    (∀ r ∈ c8bad, ∀ c ∈ required_cols, containsStr (objKeys r) c = true) ∧
    c8bad.length = 1 ∧
    (get_ubike_data (.ok (.jsonBody (some (.arr c8bad))))).1.rows.length
      = 0 := by
  decide

/-- C8 (amended): for every flat top-level JSON array of objects in which
every object has all required fields, whose numeric fields
(`lat`, `lng`, `tot`, `sbi`, `bemp`) all coerce to numbers and whose
names are non-null, the normalizer emits exactly one output record per
input object, in order, and each numeric cell is exactly the numeric
coercion of the corresponding input field.  (The claim as stated is
false: a record whose required fields are present but whose latitude
text is non-numeric is dropped — see the counterexample.) -/
theorem C8_flat_array (rs : List JVal)
    (hobj : rs.all (fun r => r matches .obj _) = true)
    (hkeys : ∀ r ∈ rs, ∀ c ∈ required_cols,
      containsStr (objKeys r) c = true)
    (hnum : ∀ r ∈ rs, ∀ c ∈ numeric_cols,
      (toNumericCell (cellOfRecord r c)).isSome = true)
    (hsna : ∀ r ∈ rs, (cellOfRecord r "sna").isSome = true) :
    (get_ubike_data (.ok (.jsonBody (some (.arr rs))))).1.rows =
      rs.map (procRow (unionKeys rs)) ∧
    ∀ r ∈ rs, ∀ c ∈ numeric_cols,
      cellAt (unionKeys rs) (procRow (unionKeys rs) r) c =
        toNumericCell (cellOfRecord r c) := by
  rw [get_flat_array rs hobj]
  by_cases hne : rs = []
  · subst hne
    exact ⟨rfl, by intro r hr; exact absurd hr (List.not_mem_nil r)⟩
  · have hschema :
        required_cols.all (fun c => containsStr (unionKeys rs) c) = true := by
      rw [List.all_eq_true]
      intro c hc
      rw [containsStr_iff, mem_unionKeys]
      obtain ⟨r0, hr0⟩ : ∃ r, r ∈ rs := by
        cases rs with
        | nil => exact absurd rfl hne
        | cons a l => exact ⟨a, List.mem_cons_self a l⟩
      exact ⟨r0, hr0, (containsStr_iff _ _).mp (hkeys r0 hr0 c hc)⟩
    have H := normalizeStations_eq rs hne hschema
    constructor
    · rw [H]
      simp only [Frame.rows_mk]
      congr 1
      apply List.filter_eq_self.mpr
      intro r hr
      simp only [geomOK, Bool.and_eq_true]
      exact ⟨⟨hnum r hr "lat" (by decide), hnum r hr "lng" (by decide)⟩,
        hsna r hr⟩
    · intro r hr c hc
      have hc' : c = "lat" ∨ c = "lng" ∨ c = "tot" ∨ c = "sbi" ∨
          c = "bemp" := by
        simpa [numeric_cols] using hc
      rcases hc' with rfl | rfl | rfl | rfl | rfl <;>
        exact procRow_numeric_cell _ _ _
          (List.all_eq_true.mp hschema _ (by decide)) (by decide) (by decide)

/-- C8 witness: a flat array of one fully well-formed record normalizes
to exactly one processed row per record. -/
theorem C8_witness :
    (get_ubike_data (.ok (.jsonBody (some (.arr c8good))))).1.rows =
      c8good.map (procRow (unionKeys c8good)) :=
  (C8_flat_array c8good (by decide) (by decide) (by decide) (by decide)).1

/-- C9: the normalizer is total over fetch outcomes and every failure is
non-fatal: whenever a diagnostic is reported the record set is the empty
frame (no partial output, no abort), and a transport failure maps to the
empty frame with the request-failed diagnostic. -/
theorem C9_nonfatal :
    (∀ f, (get_ubike_data f).2.isSome = true →
      (get_ubike_data f).1 = Frame.empty) ∧
    get_ubike_data .transportError = (Frame.empty, some .requestFailed) := by
  refine ⟨fun f => ?_, rfl⟩
  unfold get_ubike_data
  rcases f with _ | r
  · intro _
    rfl
  rcases r with b | t
  · rcases b with _ | data
    · intro _
      rfl
    · rcases data with _ | b | q | s | xs | fs <;>
        · repeat' split
          all_goals intro h
          all_goals first | rfl | exact processFrame_error_empty _ h
  · rcases t with _ | tb
    · intro _
      rfl
    · repeat' split
      all_goals intro h
      all_goals first | rfl | exact processFrame_error_empty _ h

/-- C9 witness: instantiating the non-fatality theorem at a transport
failure, whose diagnostic is present, gives the empty frame. -/
theorem C9_witness : (get_ubike_data .transportError).1 = Frame.empty :=
  C9_nonfatal.1 Fetch.transportError rfl

theorem ue_cons (c d : Char) (ds : List Char) (h : ¬ c = '"') :
    unescapeChars (c :: d :: ds) = c :: unescapeChars (d :: ds) := by
  show (if c = '"' && d = '"' then '"' :: unescapeChars ds
    else c :: unescapeChars (d :: ds)) = c :: unescapeChars (d :: ds)
  exact if_neg (by simp [h])

theorem unescape_double (cs : List Char) :
    unescapeChars (doubleQuotesChars cs) = cs := by
  induction cs with
  | nil => rfl
  | cons c cs ih =>
    by_cases h : c = '"'
    · subst h
      rw [show doubleQuotesChars ('"' :: cs) =
          '"' :: '"' :: doubleQuotesChars cs from rfl]
      rw [show unescapeChars ('"' :: '"' :: doubleQuotesChars cs) =
          '"' :: unescapeChars (doubleQuotesChars cs) from rfl]
      rw [ih]
    · have hdq : doubleQuotesChars (c :: cs) = c :: doubleQuotesChars cs := by
        show (if c = '"' then '"' :: '"' :: doubleQuotesChars cs
          else c :: doubleQuotesChars cs) = c :: doubleQuotesChars cs
        exact if_neg h
      rw [hdq]
      cases hd : doubleQuotesChars cs with
      | nil =>
        rw [hd] at ih
        rw [show unescapeChars ([] : List Char) = [] from rfl] at ih
        rw [show unescapeChars [c] = [c] from rfl, ← ih]
      | cons d ds =>
        rw [ue_cons c d ds h, ← hd, ih]

theorem mk_toList (s : String) : String.mk s.toList = s := by
  cases s
  rfl

theorem pyReplaceDq_double (s : String) :
    pyReplaceDq (doubleQuotes s) = s := by
  unfold pyReplaceDq doubleQuotes
  rw [show (String.mk (doubleQuotesChars s.toList)).toList =
      doubleQuotesChars s.toList from rfl]
  rw [unescape_double]
  exact mk_toList s

/-- C2: for every JSON list of station objects, normalizing the enveloped
input whose `retVal` field is a string that JSON-decodes to that list
produces the same result as normalizing the list given directly as a flat
top-level JSON array. -/
theorem C2_envelope_roundtrip (s : String) (L : List JVal)
    (hobj : L.all (fun r => r matches .obj _) = true)
    (hparse : jsonParse s = some (.arr L)) :
    get_ubike_data (.ok (.jsonBody (some (.obj [("retVal", .str s)])))) =
      get_ubike_data (.ok (.jsonBody (some (.arr L)))) := by
  rw [get_flat_array L hobj]
  show (match jsonParse s with
    | some sd =>
      match pdFrameOfJson sd with
      | some df => processFrame df
      | none => (Frame.empty, some Diag.processingError)
    | none => (Frame.empty, some (Diag.retValDecodeError (s.take 500)))) =
    normalizeStations L
  rw [hparse]
  rfl

/-- C2 witness: a concrete one-station JSON text enveloped under `retVal`
normalizes exactly like the flat array it encodes. -/
theorem C2_witness :
    jsonParse c2str = some (.arr c2list) ∧
    get_ubike_data (.ok (.jsonBody (some (.obj [("retVal", .str c2str)])))) =
      get_ubike_data (.ok (.jsonBody (some (.arr c2list)))) :=
  ⟨by decide, C2_envelope_roundtrip c2str c2list (by decide) (by decide)⟩

/-- C3: normalizing a parsed CSV response whose first row's `retVal` cell
holds the JSON encoding of a station-object list with every quote
character doubled (CSV escaping) produces the same result as normalizing
the list given directly as a flat JSON array: the normalizer replaces each
doubled quote pair by a single quote and JSON-decodes the cell. -/
theorem C3_csv_roundtrip (s : String) (L : List JVal)
    (tcols : List String) (r0 : List (Option JVal))
    (rest : List (List (Option JVal)))
    (hobj : L.all (fun r => r matches .obj _) = true)
    (hparse : jsonParse s = some (.arr L))
    (hcol : containsStr tcols "retVal" = true)
    (hcell : cellAt tcols r0 "retVal" = some (.str (doubleQuotes s))) :
    get_ubike_data (.ok (.csvBody (some ⟨tcols, r0 :: rest⟩))) =
      get_ubike_data (.ok (.jsonBody (some (.arr L)))) := by
  rw [get_flat_array L hobj]
  have hEmpty : Frame.isEmpty ⟨tcols, r0 :: rest⟩ = false := by
    unfold Frame.isEmpty
    cases tcols with
    | nil => simp [containsStr] at hcol
    | cons a as => rfl
  show (if Frame.isEmpty ⟨tcols, r0 :: rest⟩ = true then
      (Frame.empty, some Diag.csvEmptyData)
    else if containsStr tcols "retVal" = true then
      match cellAt tcols r0 "retVal" with
      | some (JVal.str rv) =>
        match jsonParse (pyReplaceDq rv) with
        | some sd =>
          match pdFrameOfJson sd with
          | some df => processFrame df
          | none => (Frame.empty, some Diag.processingError)
        | none => (Frame.empty, some (Diag.csvRetValDecodeError (rv.take 500)))
      | _ => (Frame.empty, some Diag.csvRetValNotString)
    else processFrame ⟨tcols, r0 :: rest⟩) = normalizeStations L
  rw [hEmpty]
  simp only [Bool.false_eq_true, if_false]
  rw [hcol]
  rw [if_pos rfl]
  rw [hcell]
  show (match jsonParse (pyReplaceDq (doubleQuotes s)) with
    | some sd =>
      match pdFrameOfJson sd with
      | some df => processFrame df
      | none => (Frame.empty, some Diag.processingError)
    | none =>
      (Frame.empty,
       some (Diag.csvRetValDecodeError ((doubleQuotes s).take 500)))) =
    normalizeStations L
  rw [pyReplaceDq_double, hparse]
  rfl

/-- C3 witness: a one-column one-row CSV table whose `retVal` cell holds
the quote-doubled JSON text normalizes exactly like the flat array. -/
theorem C3_witness :
    get_ubike_data (.ok (.csvBody (some ⟨["retVal"],
        [[some (JVal.str (doubleQuotes c3str))]]⟩))) =
      get_ubike_data (.ok (.jsonBody (some (.arr c3list)))) :=
  C3_csv_roundtrip c3str c3list ["retVal"]
    [some (JVal.str (doubleQuotes c3str))] []
    (by decide) (by decide) (by decide) (by decide)

theorem hav_a_comm (lat1 lon1 lat2 lon2 : ℝ) :
    hav_a lat1 lon1 lat2 lon2 = hav_a lat2 lon2 lat1 lon1 := by
  unfold hav_a radians
  dsimp only
  have h1 : (lat1 - lat2) * (Real.pi / 180) / 2 =
      -((lat2 - lat1) * (Real.pi / 180) / 2) := by ring
  have h2 : (lon1 - lon2) * (Real.pi / 180) / 2 =
      -((lon2 - lon1) * (Real.pi / 180) / 2) := by ring
  rw [h1, h2, Real.sin_neg, Real.sin_neg]
  ring

theorem hav_a_self (lat lon : ℝ) : hav_a lat lon lat lon = 0 := by
  unfold hav_a radians
  dsimp only
  rw [sub_self lat, sub_self lon, zero_mul, zero_div, Real.sin_zero]
  ring

theorem haversine_zero_of_a_zero (lat1 lon1 lat2 lon2 : ℝ)
    (h : hav_a lat1 lon1 lat2 lon2 = 0) :
    haversine lat1 lon1 lat2 lon2 = 0 := by
  have hat : atan2 0 1 = 0 := by
    unfold atan2
    rw [if_pos (by norm_num : (0 : ℝ) < 1)]
    rw [zero_div, Real.arctan_zero]
  show 6371 * (2 * atan2 (Real.sqrt (hav_a lat1 lon1 lat2 lon2))
      (Real.sqrt (1 - hav_a lat1 lon1 lat2 lon2))) = 0
  rw [h, Real.sqrt_zero, sub_zero, Real.sqrt_one, hat]
  ring

/-- C7 counterexample: the haversine distance of the two distinct
coordinate pairs (90, 0) and (90, 90) — both in the standard geographic
range — is zero, so distance zero does not imply that the two argument
pairs are identical. -/
theorem C7_counterexample :
    haversine 90 0 90 90 = 0 ∧
    ((90 : ℝ), (0 : ℝ)) ≠ ((90 : ℝ), (90 : ℝ)) := by
  constructor
  · apply haversine_zero_of_a_zero
    unfold hav_a radians
    dsimp only
    rw [sub_self, zero_mul, zero_div, Real.sin_zero]
    rw [show (90 : ℝ) * (Real.pi / 180) = Real.pi / 2 by ring,
      Real.cos_pi_div_two]
    ring
  · intro h
    rw [Prod.ext_iff] at h
    norm_num at h

/-- C7 (amended): the great-circle distance is symmetric and vanishes on
identical points: `d(a,b) = d(b,a)` for all pairs and `d(p,p) = 0` for
every point.  (The converse — distance zero only for identical argument
pairs — is false for this formula: see the counterexample at the pole.) -/
theorem C7_distance_props :
    (∀ lat1 lon1 lat2 lon2 : ℝ,
      haversine lat1 lon1 lat2 lon2 = haversine lat2 lon2 lat1 lon1) ∧
    ∀ lat lon : ℝ, haversine lat lon lat lon = 0 := by
  constructor
  · intro lat1 lon1 lat2 lon2
    show 6371 * (2 * atan2 (Real.sqrt (hav_a lat1 lon1 lat2 lon2))
        (Real.sqrt (1 - hav_a lat1 lon1 lat2 lon2))) =
      6371 * (2 * atan2 (Real.sqrt (hav_a lat2 lon2 lat1 lon1))
        (Real.sqrt (1 - hav_a lat2 lon2 lat1 lon1)))
    rw [hav_a_comm lat1 lon1 lat2 lon2]
  · intro lat lon
    exact haversine_zero_of_a_zero _ _ _ _ (hav_a_self lat lon)

theorem atan2_nonneg_le (y x : ℝ) (hy : 0 ≤ y) (hx : 0 ≤ x) :
    0 ≤ atan2 y x ∧ atan2 y x ≤ Real.pi / 2 := by
  unfold atan2
  rcases lt_or_eq_of_le hx with hx' | hx'
  · rw [if_pos hx']
    constructor
    · have h0 : 0 ≤ y / x := div_nonneg hy hx'.le
      have h := Real.arctan_strictMono.monotone h0
      rwa [Real.arctan_zero] at h
    · exact (Real.arctan_lt_pi_div_two _).le
  · rw [if_neg (by rw [← hx']; exact lt_irrefl 0)]
    rw [if_neg (by rintro ⟨h1, _⟩; rw [← hx'] at h1; exact lt_irrefl 0 h1)]
    rw [if_neg (by rintro ⟨h1, _⟩; rw [← hx'] at h1; exact lt_irrefl 0 h1)]
    by_cases hy' : 0 < y
    · rw [if_pos ⟨hx'.symm, hy'⟩]
      constructor
      · positivity
      · exact le_refl _
    · rw [if_neg (fun h => hy' h.2)]
      rw [if_neg (fun h => absurd h.2 (not_lt.mpr hy))]
      constructor
      · exact le_refl 0
      · positivity

theorem hav_a_bounds (lat1 lon1 lat2 lon2 : ℝ) :
    0 ≤ hav_a lat1 lon1 lat2 lon2 ∧ hav_a lat1 lon1 lat2 lon2 ≤ 1 := by
  unfold hav_a radians
  dsimp only
  have hA : (lat2 - lat1) * (Real.pi / 180) =
      lat2 * (Real.pi / 180) - lat1 * (Real.pi / 180) := by ring
  rw [hA]
  set r1 := lat1 * (Real.pi / 180)
  set r2 := lat2 * (Real.pi / 180)
  set D := (lon2 - lon1) * (Real.pi / 180)
  have e1 : Real.sin ((r2 - r1) / 2) * Real.sin ((r2 - r1) / 2) =
      (1 - Real.cos (r2 - r1)) / 2 := by
    have h := Real.sin_sq_eq_half_sub ((r2 - r1) / 2)
    rw [show 2 * ((r2 - r1) / 2) = r2 - r1 by ring] at h
    rw [pow_two] at h
    linarith
  have e2 : Real.sin (D / 2) * Real.sin (D / 2) =
      (1 - Real.cos D) / 2 := by
    have h := Real.sin_sq_eq_half_sub (D / 2)
    rw [show 2 * (D / 2) = D by ring] at h
    rw [pow_two] at h
    linarith
  rw [e1, e2]
  have hcomm : Real.cos r1 * Real.cos r2 = Real.cos r2 * Real.cos r1 :=
    mul_comm _ _
  have hsub : Real.cos (r2 - r1) =
      Real.cos r2 * Real.cos r1 + Real.sin r2 * Real.sin r1 :=
    Real.cos_sub r2 r1
  have hadd : Real.cos (r2 + r1) =
      Real.cos r2 * Real.cos r1 - Real.sin r2 * Real.sin r1 :=
    Real.cos_add r2 r1
  have hD1 : -1 ≤ Real.cos D := Real.neg_one_le_cos D
  have hD2 : Real.cos D ≤ 1 := Real.cos_le_one D
  have hS1 : -1 ≤ Real.cos (r2 + r1) := Real.neg_one_le_cos _
  have hS2 : Real.cos (r2 + r1) ≤ 1 := Real.cos_le_one _
  have hA1 : -1 ≤ Real.cos (r2 - r1) := Real.neg_one_le_cos _
  have hA2 : Real.cos (r2 - r1) ≤ 1 := Real.cos_le_one _
  have ht0 : 0 ≤ (1 - Real.cos D) / 2 := by linarith
  have ht1 : (1 - Real.cos D) / 2 ≤ 1 := by linarith
  rcases le_or_lt 0 (Real.cos r1 * Real.cos r2) with hc | hc
  · have hmul1 : Real.cos r1 * Real.cos r2 * ((1 - Real.cos D) / 2) ≤
        Real.cos r1 * Real.cos r2 := by
      calc Real.cos r1 * Real.cos r2 * ((1 - Real.cos D) / 2)
          ≤ Real.cos r1 * Real.cos r2 * 1 :=
            mul_le_mul_of_nonneg_left ht1 hc
        _ = Real.cos r1 * Real.cos r2 := mul_one _
    have hmul0 : 0 ≤ Real.cos r1 * Real.cos r2 * ((1 - Real.cos D) / 2) :=
      mul_nonneg hc ht0
    constructor
    · linarith
    · linarith [hsub, hadd, hcomm, hS2, hA1, hmul1]
  · have hmul2 : Real.cos r1 * Real.cos r2 ≤
        Real.cos r1 * Real.cos r2 * ((1 - Real.cos D) / 2) := by
      calc Real.cos r1 * Real.cos r2
          = Real.cos r1 * Real.cos r2 * 1 := (mul_one _).symm
        _ ≤ Real.cos r1 * Real.cos r2 * ((1 - Real.cos D) / 2) :=
            mul_le_mul_of_nonpos_left ht1 hc.le
    have hmul3 : Real.cos r1 * Real.cos r2 * ((1 - Real.cos D) / 2) ≤ 0 :=
      mul_nonpos_iff.mpr (Or.inr ⟨hc.le, ht0⟩)
    constructor
    · linarith [hsub, hadd, hcomm, hS1, hA2, hmul2]
    · linarith

/-- C10: the haversine helper is total and safe for all real inputs in
degrees: the intermediate `a` always lies in [0, 1], so both square-root
arguments are non-negative, and the returned distance lies in
[0, π·6371]. -/
theorem C10_distance_bounds :
    ∀ lat1 lon1 lat2 lon2 : ℝ,
      0 ≤ hav_a lat1 lon1 lat2 lon2 ∧
      hav_a lat1 lon1 lat2 lon2 ≤ 1 ∧
      0 ≤ haversine lat1 lon1 lat2 lon2 ∧
      haversine lat1 lon1 lat2 lon2 ≤ Real.pi * 6371 := by
  intro lat1 lon1 lat2 lon2
  obtain ⟨ha0, ha1⟩ := hav_a_bounds lat1 lon1 lat2 lon2
  have hy : 0 ≤ Real.sqrt (hav_a lat1 lon1 lat2 lon2) := Real.sqrt_nonneg _
  have hx : 0 ≤ Real.sqrt (1 - hav_a lat1 lon1 lat2 lon2) :=
    Real.sqrt_nonneg _
  obtain ⟨hat0, hat1⟩ := atan2_nonneg_le _ _ hy hx
  refine ⟨ha0, ha1, ?_, ?_⟩
  · show 0 ≤ 6371 * (2 * atan2 (Real.sqrt (hav_a lat1 lon1 lat2 lon2))
        (Real.sqrt (1 - hav_a lat1 lon1 lat2 lon2)))
    linarith
  · show 6371 * (2 * atan2 (Real.sqrt (hav_a lat1 lon1 lat2 lon2))
        (Real.sqrt (1 - hav_a lat1 lon1 lat2 lon2))) ≤ Real.pi * 6371
    linarith

end UBike
